/-
Verification development for the AtlasECS library
(source: src/AtlasECS/include/AtlasECS.hpp).

The C++ data structures are shallowly embedded as executable Lean
definitions:

* `SparseSet` models the template class `SparseSet<T>` (dense array,
  sparse array, size, capacity) with `has`, `insert`, `erase`, `reserve`
  translated statement by statement from the source.
* `Store` models one per-component-type byte buffer
  (`m_ComponentBuffers[id]`).  Records are always placement-constructed
  at byte offsets by `ComponentCreate`; the buffer is represented by its
  byte length `len` together with a map `recs` from byte offset to the
  record constructed there (`none` = uninitialized memory).  A record
  carries its payload and the `Entity` field that `ComponentCreate`
  assigns.
* `CWorld` models the class `CWorld`; `std::bitset<MAX_COMPONENTS>` is
  represented as the `Finset Nat` of its set bits, `std::deque` as a
  `List` whose head is the front, `std::forward_list` as a `List` whose
  head is the front, and the per-entity / per-component vectors as total
  functions (the C++ vectors are only ever accessed in range in defined
  executions; the resize branch of `CreateEntity` is dead because
  `entity >= capacity()` cannot hold directly after a `push_back`).
* `CSystem` models the listener bodies registered in the `CSystem`
  constructor; a world together with its registered systems is a `WSys`,
  and every mutating operation returns the list of listener-notification
  events `(entity, entityMask, componentMask)` it dispatched (each event
  is broadcast to every registered listener with identical arguments).

Machine integers (`uint32_t`, `size_t`) are modelled as `Nat`; none of
the verified properties involves wrap-around, and the invariant proofs
show the single decrement sites never underflow.
-/
import Mathlib

set_option maxRecDepth 8000

/-- Model of `std::vector<Nat>::resize(n, 0)` in the grow-only form used by
`SparseSet::reserve` (the source only resizes to a strictly larger
capacity): append zeros up to length `n`. -/
def listResizeZero (l : List Nat) (n : Nat) : List Nat :=
  l ++ List.replicate (n - l.length) 0

/-- Model of the class `SparseSet<T>` of the source for `T` an unsigned
integer type: dense array, sparse array, current size and capacity. -/
structure SparseSet where
  dense : List Nat
  sparse : List Nat
  sz : Nat
  cap : Nat

/-- A default-constructed `SparseSet` (both vectors empty, size and
capacity zero). -/
def SparseSet.empty : SparseSet := ⟨[], [], 0, 0⟩

/-- `SparseSet::reserve(cap)`: if `cap > m_Capacity`, resize both arrays
to `cap` (zero filled) and update the capacity. -/
def SparseSet.reserve (s : SparseSet) (c : Nat) : SparseSet :=
  if s.cap < c then
    ⟨listResizeZero s.dense c, listResizeZero s.sparse c, s.sz, c⟩
  else s

/-- `SparseSet::has(val)`:
`val < m_Capacity && m_SparseArray[val] < m_Size &&
 m_DenseArray[m_SparseArray[val]] == val`. -/
def SparseSet.has (s : SparseSet) (v : Nat) : Bool :=
  decide (v < s.cap) && decide (s.sparse.getD v 0 < s.sz) &&
    (s.dense.getD (s.sparse.getD v 0) 0 == v)

/-- The unconditional part of `SparseSet::insert`: write `val` at
`m_DenseArray[m_Size]`, write the back index at `m_SparseArray[val]`,
increment the size. -/
def SparseSet.insertCore (s : SparseSet) (v : Nat) : SparseSet :=
  ⟨s.dense.set s.sz v, s.sparse.set v s.sz, s.sz + 1, s.cap⟩

/-- `SparseSet::insert(val)`: no-op when present; otherwise reserve up to
`val + 1` when `val >= m_Capacity`, then perform the dense/sparse writes. -/
def SparseSet.insert (s : SparseSet) (v : Nat) : SparseSet :=
  if s.has v then s
  else SparseSet.insertCore (if s.cap ≤ v then s.reserve (v + 1) else s) v

/-- The unconditional part of `SparseSet::erase(val)`: copy the last dense
element over the erased slot, update its back index, decrement the size.
The second C++ line reads `m_DenseArray[m_Size - 1]` after the first line
wrote the dense array, so the model reads it from `dense'`. -/
def SparseSet.eraseCore (s : SparseSet) (v : Nat) : SparseSet :=
  let iv := s.sparse.getD v 0
  let lastVal := s.dense.getD (s.sz - 1) 0
  let dense' := s.dense.set iv lastVal
  let sparse' := s.sparse.set (dense'.getD (s.sz - 1) 0) iv
  ⟨dense', sparse', s.sz - 1, s.cap⟩

/-- `SparseSet::erase(val)`: no-op when absent, otherwise the swap-with-last
removal. -/
def SparseSet.erase (s : SparseSet) (v : Nat) : SparseSet :=
  if s.has v then s.eraseCore v else s

/-- Well-formedness of a sparse set state: the two arrays have length
equal to the capacity, the size is bounded by the capacity, and every
dense slot below the size holds a value below the capacity whose sparse
entry points back at the slot.  Every state reachable from
`SparseSet.empty` by `reserve`/`insert`/`erase` is well formed. -/
structure SparseSet.WF (s : SparseSet) : Prop where
  dlen : s.dense.length = s.cap
  slen : s.sparse.length = s.cap
  szle : s.sz ≤ s.cap
  dom : ∀ i, i < s.sz →
    s.dense.getD i 0 < s.cap ∧ s.sparse.getD (s.dense.getD i 0) 0 = i

theorem getD_set_self (l : List Nat) (i a : Nat) (h : i < l.length) :
    (l.set i a).getD i 0 = a := by
  induction l generalizing i with
  | nil => simp at h
  | cons b t ih =>
    cases i with
    | zero => rfl
    | succ j => exact ih j (by simpa using h)

theorem getD_set_ne (l : List Nat) (i j a : Nat) (h : i ≠ j) :
    (l.set i a).getD j 0 = l.getD j 0 := by
  induction l generalizing i j with
  | nil => rfl
  | cons b t ih =>
    cases i with
    | zero =>
      cases j with
      | zero => exact absurd rfl h
      | succ k => rfl
    | succ i' =>
      cases j with
      | zero => rfl
      | succ k => exact ih i' k (by omega)

theorem length_set (l : List Nat) (i a : Nat) :
    (l.set i a).length = l.length := by
  simp

theorem getD_replicate_zero (k i : Nat) :
    (List.replicate k 0).getD i 0 = 0 := by
  induction k generalizing i with
  | zero => rfl
  | succ k ih =>
    cases i with
    | zero => rfl
    | succ j => exact ih j

theorem getD_listResizeZero (l : List Nat) (n i : Nat) :
    (listResizeZero l n).getD i 0 = l.getD i 0 := by
  induction l generalizing n i with
  | nil =>
    show (List.replicate (n - 0) 0).getD i 0 = List.getD [] i 0
    rw [getD_replicate_zero]
    rfl
  | cons b t ih =>
    cases i with
    | zero => rfl
    | succ j =>
      have harith : n - (b :: t).length = n - 1 - t.length := by
        simp only [List.length_cons]
        omega
      have hstep : listResizeZero (b :: t) n = b :: listResizeZero t (n - 1) := by
        simp only [listResizeZero, harith, List.cons_append]
      rw [hstep]
      exact ih (n - 1) j

theorem length_listResizeZero (l : List Nat) (n : Nat) (h : l.length ≤ n) :
    (listResizeZero l n).length = n := by
  simp [listResizeZero]
  omega

theorem SparseSet.has_iff {s : SparseSet} (h : s.WF) (v : Nat) :
    s.has v = true ↔ ∃ i, i < s.sz ∧ s.dense.getD i 0 = v := by
  constructor
  · intro hv
    simp only [SparseSet.has, Bool.and_eq_true, decide_eq_true_eq, beq_iff_eq] at hv
    exact ⟨s.sparse.getD v 0, hv.1.2, hv.2⟩
  · rintro ⟨i, hi, hd⟩
    have hdom := h.dom i hi
    simp only [SparseSet.has, Bool.and_eq_true, decide_eq_true_eq, beq_iff_eq]
    refine ⟨⟨?_, ?_⟩, ?_⟩
    · rw [← hd]; exact hdom.1
    · rw [← hd, hdom.2]; exact hi
    · rw [← hd, hdom.2, hd]

theorem SparseSet.dense_inj {s : SparseSet} (h : s.WF) {i j : Nat}
    (hi : i < s.sz) (hj : j < s.sz)
    (he : s.dense.getD i 0 = s.dense.getD j 0) : i = j := by
  have h1 := (h.dom i hi).2
  have h2 := (h.dom j hj).2
  rw [← h1, he, h2]

theorem SparseSet.reserve_WF {s : SparseSet} (h : s.WF) (c : Nat) :
    (s.reserve c).WF := by
  unfold SparseSet.reserve
  split
  · rename_i hc
    refine ⟨?_, ?_, ?_, ?_⟩
    · exact length_listResizeZero _ _ (by rw [h.dlen]; omega)
    · exact length_listResizeZero _ _ (by rw [h.slen]; omega)
    · exact le_trans h.szle (le_of_lt hc)
    · intro i hi
      simp only [getD_listResizeZero]
      exact ⟨lt_trans (h.dom i hi).1 hc, (h.dom i hi).2⟩
  · exact h

theorem SparseSet.reserve_sz (s : SparseSet) (c : Nat) :
    (s.reserve c).sz = s.sz := by
  unfold SparseSet.reserve
  split <;> rfl

theorem SparseSet.reserve_getD_dense (s : SparseSet) (c i : Nat) :
    (s.reserve c).dense.getD i 0 = s.dense.getD i 0 := by
  unfold SparseSet.reserve
  split
  · exact getD_listResizeZero _ _ _
  · rfl

theorem SparseSet.reserve_cap_gt {s : SparseSet} {v : Nat} (h : s.cap ≤ v) :
    v < (s.reserve (v + 1)).cap := by
  unfold SparseSet.reserve
  rw [if_pos (by omega)]
  exact Nat.lt_succ_self v

theorem SparseSet.has_reserve {s : SparseSet} (h : s.WF) (c v : Nat) :
    (s.reserve c).has v = s.has v := by
  have h' := SparseSet.reserve_WF h c
  have hiff : (s.reserve c).has v = true ↔ s.has v = true := by
    rw [SparseSet.has_iff h', SparseSet.has_iff h]
    simp only [SparseSet.reserve_sz, SparseSet.reserve_getD_dense]
  cases hb : s.has v
  · cases ha : (s.reserve c).has v
    · rfl
    · have hx := hiff.mp ha
      rw [hb] at hx
      exact hx.symm
  · exact hiff.mpr hb

theorem SparseSet.sz_lt_cap_of_not_has {s : SparseSet} (h : s.WF) {v : Nat}
    (hv : v < s.cap) (hh : s.has v = false) : s.sz < s.cap := by
  rcases Nat.lt_or_ge s.sz s.cap with hlt | hge
  · exact hlt
  · exfalso
    have hsz : s.sz = s.cap := le_antisymm h.szle hge
    let g : Fin s.cap → Fin s.cap := fun i =>
      ⟨s.dense.getD i 0, (h.dom i (by omega)).1⟩
    have hginj : Function.Injective g := by
      intro i j hij
      have hval : s.dense.getD i 0 = s.dense.getD j 0 := congrArg Fin.val hij
      exact Fin.ext (SparseSet.dense_inj h (by omega) (by omega) hval)
    have hsurj : Function.Surjective g := Finite.injective_iff_surjective.mp hginj
    obtain ⟨i, hi⟩ := hsurj ⟨v, hv⟩
    have htrue : s.has v = true :=
      (SparseSet.has_iff h v).mpr ⟨i, by omega, congrArg Fin.val hi⟩
    rw [hh] at htrue
    exact Bool.noConfusion htrue

theorem SparseSet.insertCore_WF {s : SparseSet} (h : s.WF) {v : Nat}
    (hv : v < s.cap) (hh : s.has v = false) : (s.insertCore v).WF := by
  have hszlt : s.sz < s.cap := SparseSet.sz_lt_cap_of_not_has h hv hh
  refine ⟨?_, ?_, ?_, ?_⟩
  · dsimp only [SparseSet.insertCore]
    rw [List.length_set, h.dlen]
  · dsimp only [SparseSet.insertCore]
    rw [List.length_set, h.slen]
  · exact hszlt
  · intro i hi
    dsimp only [SparseSet.insertCore] at hi ⊢
    rcases Nat.lt_succ_iff_lt_or_eq.mp hi with hlt | heq
    · have hne : s.sz ≠ i := by omega
      rw [getD_set_ne s.dense s.sz i v hne]
      have hdom := h.dom i hlt
      have hdv : s.dense.getD i 0 ≠ v := by
        intro hdveq
        have : s.has v = true := (SparseSet.has_iff h v).mpr ⟨i, hlt, hdveq⟩
        rw [hh] at this
        exact Bool.noConfusion this
      rw [getD_set_ne s.sparse v (s.dense.getD i 0) s.sz (fun hx => hdv hx.symm)]
      exact ⟨hdom.1, hdom.2⟩
    · subst heq
      rw [getD_set_self s.dense s.sz v (by rw [h.dlen]; exact hszlt)]
      rw [getD_set_self s.sparse v s.sz (by rw [h.slen]; exact hv)]
      exact ⟨hv, rfl⟩

theorem SparseSet.insertCore_has {s : SparseSet} (h : s.WF) {v : Nat}
    (hv : v < s.cap) (hh : s.has v = false) (x : Nat) :
    (s.insertCore v).has x = true ↔ (x = v ∨ s.has x = true) := by
  have hszlt : s.sz < s.cap := SparseSet.sz_lt_cap_of_not_has h hv hh
  rw [SparseSet.has_iff (SparseSet.insertCore_WF h hv hh), SparseSet.has_iff h]
  dsimp only [SparseSet.insertCore]
  constructor
  · rintro ⟨i, hi, hd⟩
    rcases Nat.lt_succ_iff_lt_or_eq.mp hi with hlt | heq
    · right
      refine ⟨i, hlt, ?_⟩
      rw [← hd, getD_set_ne s.dense s.sz i v (by omega)]
    · left
      subst heq
      rw [getD_set_self s.dense s.sz v (by rw [h.dlen]; exact hszlt)] at hd
      exact hd.symm
  · rintro (rfl | ⟨i, hi, hd⟩)
    · exact ⟨s.sz, Nat.lt_succ_self _,
        getD_set_self s.dense s.sz x (by rw [h.dlen]; exact hszlt)⟩
    · refine ⟨i, Nat.lt_succ_of_lt hi, ?_⟩
      rw [getD_set_ne s.dense s.sz i v (by omega)]
      exact hd

theorem SparseSet.insert_WF {s : SparseSet} (h : s.WF) (v : Nat) :
    (s.insert v).WF := by
  unfold SparseSet.insert
  split
  · exact h
  · rename_i hnot
    have hfalse : s.has v = false := by
      cases hb : s.has v
      · rfl
      · exact absurd hb hnot
    by_cases hc : s.cap ≤ v
    · rw [if_pos hc]
      exact SparseSet.insertCore_WF (SparseSet.reserve_WF h (v + 1))
        (SparseSet.reserve_cap_gt hc)
        (by rw [SparseSet.has_reserve h]; exact hfalse)
    · rw [if_neg hc]
      exact SparseSet.insertCore_WF h (by omega) hfalse

theorem SparseSet.has_insert {s : SparseSet} (h : s.WF) (v x : Nat) :
    (s.insert v).has x = true ↔ (x = v ∨ s.has x = true) := by
  unfold SparseSet.insert
  split
  · rename_i htrue
    constructor
    · intro hx
      exact Or.inr hx
    · rintro (rfl | hx)
      · exact htrue
      · exact hx
  · rename_i hnot
    have hfalse : s.has v = false := by
      cases hb : s.has v
      · rfl
      · exact absurd hb hnot
    by_cases hc : s.cap ≤ v
    · rw [if_pos hc]
      rw [SparseSet.insertCore_has (SparseSet.reserve_WF h (v + 1))
        (SparseSet.reserve_cap_gt hc)
        (by rw [SparseSet.has_reserve h]; exact hfalse) x]
      rw [SparseSet.has_reserve h]
    · rw [if_neg hc]
      exact SparseSet.insertCore_has h (by omega) hfalse x

theorem SparseSet.eraseCore_eq {s : SparseSet} (h : s.WF) {v : Nat}
    (hv2 : s.sparse.getD v 0 < s.sz) :
    s.eraseCore v =
      ⟨s.dense.set (s.sparse.getD v 0) (s.dense.getD (s.sz - 1) 0),
        s.sparse.set (s.dense.getD (s.sz - 1) 0) (s.sparse.getD v 0),
        s.sz - 1, s.cap⟩ := by
  have hszle := h.szle
  have hkey : (s.dense.set (s.sparse.getD v 0) (s.dense.getD (s.sz - 1) 0)).getD
      (s.sz - 1) 0 = s.dense.getD (s.sz - 1) 0 := by
    by_cases hiveq : s.sparse.getD v 0 = s.sz - 1
    · rw [hiveq]
      exact getD_set_self s.dense (s.sz - 1) _ (by rw [h.dlen]; omega)
    · exact getD_set_ne s.dense _ _ _ hiveq
  unfold SparseSet.eraseCore
  simp only [hkey]

theorem SparseSet.eraseExplicit_WF {s : SparseSet} (h : s.WF) {v : Nat}
    (hv1 : v < s.cap) (hv2 : s.sparse.getD v 0 < s.sz)
    (hv3 : s.dense.getD (s.sparse.getD v 0) 0 = v) :
    SparseSet.WF
      ⟨s.dense.set (s.sparse.getD v 0) (s.dense.getD (s.sz - 1) 0),
        s.sparse.set (s.dense.getD (s.sz - 1) 0) (s.sparse.getD v 0),
        s.sz - 1, s.cap⟩ := by
  have hszle := h.szle
  have hlastlt : s.sz - 1 < s.sz := by omega
  have hL := h.dom (s.sz - 1) hlastlt
  have hivlen : s.sparse.getD v 0 < s.dense.length := by rw [h.dlen]; omega
  refine ⟨?_, ?_, ?_, ?_⟩
  · dsimp only
    rw [List.length_set, h.dlen]
  · dsimp only
    rw [List.length_set, h.slen]
  · dsimp only
    have := h.szle
    omega
  · intro i hi
    dsimp only at hi ⊢
    by_cases hiiv : i = s.sparse.getD v 0
    · rw [hiiv, getD_set_self s.dense (s.sparse.getD v 0) _ hivlen]
      rw [getD_set_self s.sparse _ _ (by rw [h.slen]; exact hL.1)]
      exact ⟨hL.1, rfl⟩
    · rw [getD_set_ne s.dense _ i _ (fun hx => hiiv hx.symm)]
      have hdomi := h.dom i (by omega)
      have hne : s.dense.getD i 0 ≠ s.dense.getD (s.sz - 1) 0 := by
        intro hx
        have := SparseSet.dense_inj h (by omega) hlastlt hx
        omega
      rw [getD_set_ne s.sparse _ _ _ (fun hx => hne hx.symm)]
      exact ⟨hdomi.1, hdomi.2⟩

theorem SparseSet.eraseExplicit_has {s : SparseSet} (h : s.WF) {v : Nat}
    (hv1 : v < s.cap) (hv2 : s.sparse.getD v 0 < s.sz)
    (hv3 : s.dense.getD (s.sparse.getD v 0) 0 = v) (x : Nat) :
    SparseSet.has
      ⟨s.dense.set (s.sparse.getD v 0) (s.dense.getD (s.sz - 1) 0),
        s.sparse.set (s.dense.getD (s.sz - 1) 0) (s.sparse.getD v 0),
        s.sz - 1, s.cap⟩ x = true ↔ (s.has x = true ∧ x ≠ v) := by
  have hszle := h.szle
  have hlastlt : s.sz - 1 < s.sz := by omega
  have hivlen : s.sparse.getD v 0 < s.dense.length := by rw [h.dlen]; omega
  rw [SparseSet.has_iff (SparseSet.eraseExplicit_WF h hv1 hv2 hv3) x,
    SparseSet.has_iff h x]
  dsimp only
  constructor
  · rintro ⟨i, hi, hd⟩
    by_cases hiiv : i = s.sparse.getD v 0
    · rw [hiiv, getD_set_self s.dense (s.sparse.getD v 0) _ hivlen] at hd
      refine ⟨⟨s.sz - 1, hlastlt, hd⟩, ?_⟩
      intro hxv
      rw [hxv] at hd
      have := SparseSet.dense_inj h hlastlt hv2 (hd.trans hv3.symm)
      omega
    · rw [getD_set_ne s.dense _ i _ (fun hx => hiiv hx.symm)] at hd
      refine ⟨⟨i, by omega, hd⟩, ?_⟩
      intro hxv
      rw [hxv] at hd
      exact hiiv (SparseSet.dense_inj h (by omega) hv2 (hd.trans hv3.symm))
  · rintro ⟨⟨j, hj, hdj⟩, hxv⟩
    have hjiv : j ≠ s.sparse.getD v 0 := by
      intro hji
      apply hxv
      rw [hji] at hdj
      rw [← hdj]
      exact hv3
    by_cases hjlast : j = s.sz - 1
    · refine ⟨s.sparse.getD v 0, by omega, ?_⟩
      rw [getD_set_self s.dense (s.sparse.getD v 0) _ hivlen]
      rw [← hjlast]
      exact hdj
    · refine ⟨j, by omega, ?_⟩
      rw [getD_set_ne s.dense _ j _ (fun hx => hjiv hx.symm)]
      exact hdj

theorem SparseSet.erase_WF {s : SparseSet} (h : s.WF) (v : Nat) :
    (s.erase v).WF := by
  unfold SparseSet.erase
  split
  · rename_i hv
    simp only [SparseSet.has, Bool.and_eq_true, decide_eq_true_eq, beq_iff_eq] at hv
    rw [SparseSet.eraseCore_eq h hv.1.2]
    exact SparseSet.eraseExplicit_WF h hv.1.1 hv.1.2 hv.2
  · exact h

theorem SparseSet.has_erase {s : SparseSet} (h : s.WF) (v x : Nat) :
    (s.erase v).has x = true ↔ (s.has x = true ∧ x ≠ v) := by
  unfold SparseSet.erase
  split
  · rename_i hv
    have hv' := hv
    simp only [SparseSet.has, Bool.and_eq_true, decide_eq_true_eq, beq_iff_eq] at hv'
    rw [SparseSet.eraseCore_eq h hv'.1.2]
    exact SparseSet.eraseExplicit_has h hv'.1.1 hv'.1.2 hv'.2 x
  · rename_i hnot
    have hfalse : s.has v = false := by
      cases hb : s.has v
      · rfl
      · exact absurd hb hnot
    constructor
    · intro hx
      refine ⟨hx, ?_⟩
      intro hxv
      rw [hxv, hfalse] at hx
      exact Bool.noConfusion hx
    · exact fun hx => hx.1

theorem SparseSet.empty_reserve_WF (n : Nat) : (SparseSet.empty.reserve n).WF := by
  refine SparseSet.reserve_WF ?_ n
  exact ⟨rfl, rfl, le_refl 0, fun i hi => absurd hi (Nat.not_lt_zero i)⟩

/-- One listener notification: the argument triple
`(entity, entityMask, componentMask)` with which `CWorld` invokes every
registered `ComponentListenerFunction`.  All listeners of one dispatch
receive identical arguments, so one `AtlasEvent` per dispatch loop models
the notification delivered to every listener. -/
structure AtlasEvent where
  entity : Nat
  entityMask : Finset Nat
  compMask : Finset Nat
deriving DecidableEq

/-- One per-component-type byte buffer (`std::vector<uint8_t>`): `len` is
`buffer.size()` in bytes and `recs o` is the record placement-constructed
at byte offset `o` (`none` = no record constructed there, i.e.
uninitialized memory).  A record is the payload copied from the caller
paired with the `Entity` field that `ComponentCreate` assigns. -/
structure Store (PV : Type) where
  len : Nat
  recs : Nat → Option (PV × Nat)

/-- An empty buffer (`std::vector<uint8_t>()`). -/
def Store.empty {PV : Type} : Store PV := ⟨0, fun _ => none⟩

/-- Resize the buffer to `newLen` bytes and placement-construct a record
at byte offset `off` (`new (&memory[index]) Component(...)`), overwriting
whatever record previously lived exactly there. -/
def Store.place {PV : Type} (b : Store PV) (newLen off : Nat) (v : PV)
    (entity : Nat) : Store PV :=
  ⟨newLen, fun o => if o = off then some (v, entity) else b.recs o⟩

/-- Run a component destructor on the record at byte offset `off`
(`component->~Component()`): the slot reverts to uninitialized memory. -/
def Store.freeAt {PV : Type} (b : Store PV) (off : Nat) : Store PV :=
  ⟨b.len, fun o => if o = off then none else b.recs o⟩

/-- `ComponentCreate<Component>(buffer, entity, comp)` of the source,
translated branch by branch:
`index = buffer.size()`; if `index == 0` resize to `Component::Size` and
construct at offset `0`; else if `entity < index / Component::Size`
construct at offset `entity * size` without resizing; else resize to
`index * 2` and construct at offset `index`.  Returns the new buffer and
the byte offset of the constructed record — the offset stands for the
pointer captured by the returned destruction closure. -/
def ComponentCreate {PV : Type} (sz : Nat) (buffer : Store PV)
    (entity : Nat) (v : PV) : Store PV × Nat :=
  let index := buffer.len
  if index = 0 then
    (buffer.place sz 0 v entity, 0)
  else if entity < index / sz then
    (buffer.place buffer.len (entity * sz) v entity, entity * sz)
  else
    (buffer.place (index * 2) index v entity, index)

/-- The class `CWorld`.  Entity masks (`std::bitset<MAX_COMPONENTS>`) are
the `Finset Nat` of set bits; the deques/forward lists are `List`s with
the head as front; the per-entity and per-component vectors are total
maps.  `initialEntities` records the constructor argument: the
`m_ContainedComponentIDs` / `m_ComponentDestroyFunctions` vectors are
sized once to it and never grow (the growth branch in `CreateEntity` is
dead code since `entity >= capacity()` is false right after `push_back`),
so defined C++ executions keep fresh entity ids below it. -/
structure CWorld (PV : Type) where
  initialEntities : Nat
  largestEntityIndex : Nat
  entities : SparseSet
  deletedEntities : List Nat
  entityMasks : Nat → Finset Nat
  containedComponentIDs : Nat → List Nat
  componentDestroyFunctions : Nat → Nat → Option Nat
  validComponents : Nat → Nat × Nat
  componentBuffers : Nat → Store PV

/-- `CWorld::CWorld(initialEntities)`: empty live set with
`reserve(initialEntities)`, zero masks, empty id lists, no destroy hooks,
all `m_ValidComponents` pairs `(0, 0)`, and one empty buffer per
component id. -/
def CWorld.init (PV : Type) (initialEntities : Nat) : CWorld PV :=
  ⟨initialEntities, 0, SparseSet.empty.reserve initialEntities, [],
    fun _ => ∅, fun _ => [], fun _ _ => none, fun _ => (0, 0),
    fun _ => Store.empty⟩

/-- `CWorld::CreateEntity()`: recycle the front of `m_DeletedEntities`
when non-empty, otherwise take `m_LargestEntityIndex` (the `push_back(0)`
writes a zero mask at the fresh index), increment the counter, and insert
the id into the live set.  Returns the new world and the entity id. -/
def CWorld.CreateEntity {PV : Type} (w : CWorld PV) : CWorld PV × Nat :=
  match w.deletedEntities with
  | [] =>
      let entity := w.largestEntityIndex
      ({ w with
          entityMasks := Function.update w.entityMasks entity ∅,
          largestEntityIndex := entity + 1,
          entities := w.entities.insert entity }, entity)
  | e :: rest =>
      ({ w with deletedEntities := rest, entities := w.entities.insert e }, e)

/-- The loop of `CWorld::DestroyEntity` over `m_ContainedComponentIDs[e]`
that replaces `m_ValidComponents[id]` by
`(oldPair.first - 1, oldPair.second)` for each attached id. -/
def decValidComponents (vc : Nat → Nat × Nat) (ids : List Nat) :
    Nat → Nat × Nat :=
  ids.foldl (fun f c => Function.update f c ((f c).1 - 1, (f c).2)) vc

/-- The destroy-hook calls of the same loop: for each attached id, run the
stored destruction closure, which destructs the record at the byte offset
captured at construction time (an uninstalled hook is never invoked in a
defined execution). -/
def freeContained {PV : Type} (hooks : Nat → Option Nat)
    (bufs : Nat → Store PV) (ids : List Nat) : Nat → Store PV :=
  ids.foldl (fun bs c =>
    match hooks c with
    | some off => Function.update bs c ((bs c).freeAt off)
    | none => bs) bufs

/-- `CWorld::DestroyEntity(entity)`: no-op when the entity is not in the
live set; otherwise `push_front` onto `m_DeletedEntities`, erase from the
live set, decrement each attached component count and run its destroy
hook, clear the attached-id list, dispatch one on-remove notification
`(entity, mask, mask)` with the full pre-destroy mask, then reset the
mask. -/
def CWorld.DestroyEntity {PV : Type} (w : CWorld PV) (entity : Nat) :
    CWorld PV × List AtlasEvent :=
  if w.entities.has entity then
    let ids := w.containedComponentIDs entity
    let mask := w.entityMasks entity
    ({ w with
        deletedEntities := entity :: w.deletedEntities,
        entities := w.entities.erase entity,
        validComponents := decValidComponents w.validComponents ids,
        componentBuffers :=
          freeContained (w.componentDestroyFunctions entity)
            w.componentBuffers ids,
        containedComponentIDs :=
          Function.update w.containedComponentIDs entity [],
        entityMasks := Function.update w.entityMasks entity ∅ },
      [⟨entity, mask, mask⟩])
  else (w, [])

/-- `CWorld::AddComponent_Single<T>(entity, component)`: no-op when
`(m_EntityMasks[entity] & T::Filter) == T::Filter`; otherwise construct
the record via `T::Create` (= `ComponentCreate`), push `T::Id` onto the
front of the attached-id list, store the destroy hook, replace
`m_ValidComponents[id]` by `(count + 1, T::Size)`, set the mask bit, and
dispatch one on-add notification with the post-set mask and `T::Filter`.
A component type is the pair of its registry id `cid` (whose filter is
the singleton bit `cid`) and its byte size `sz`. -/
def CWorld.AddComponent_Single {PV : Type} (w : CWorld PV)
    (entity cid sz : Nat) (v : PV) : CWorld PV × List AtlasEvent :=
  if w.entityMasks entity ∩ {cid} = {cid} then (w, [])
  else
    let res := ComponentCreate sz (w.componentBuffers cid) entity v
    let newMask := w.entityMasks entity ∪ {cid}
    ({ w with
        componentBuffers := Function.update w.componentBuffers cid res.1,
        containedComponentIDs :=
          Function.update w.containedComponentIDs entity
            (cid :: w.containedComponentIDs entity),
        componentDestroyFunctions :=
          Function.update w.componentDestroyFunctions entity
            (Function.update (w.componentDestroyFunctions entity) cid
              (some res.2)),
        validComponents :=
          Function.update w.validComponents cid
            ((w.validComponents cid).1 + 1, sz),
        entityMasks := Function.update w.entityMasks entity newMask },
      [⟨entity, newMask, {cid}⟩])

/-- `CWorld::RemoveComponent<T>(entity)`: no-op when
`(m_EntityMasks[entity] & T::Filter) != T::Filter`; otherwise destruct
the record at byte offset `entity * T::Size`, remove `T::Id` from the
attached-id list (`std::forward_list::remove` removes every equal
element), replace `m_ValidComponents[id]` by `(count - 1, T::Size)`,
dispatch one on-remove notification with the pre-clear mask and
`T::Filter`, and only then clear the mask bit. -/
def CWorld.RemoveComponent {PV : Type} (w : CWorld PV)
    (entity cid sz : Nat) : CWorld PV × List AtlasEvent :=
  if w.entityMasks entity ∩ {cid} = {cid} then
    let entityMask := w.entityMasks entity
    ({ w with
        componentBuffers :=
          Function.update w.componentBuffers cid
            ((w.componentBuffers cid).freeAt (entity * sz)),
        containedComponentIDs :=
          Function.update w.containedComponentIDs entity
            ((w.containedComponentIDs entity).filter (fun c => c != cid)),
        validComponents :=
          Function.update w.validComponents cid
            ((w.validComponents cid).1 - 1, sz),
        entityMasks :=
          Function.update w.entityMasks entity (entityMask \ {cid}) },
      [⟨entity, entityMask, {cid}⟩])
  else (w, [])

/-- `CWorld::GetComponent<T>(entity)`: unchecked — the returned pointer is
`&m_ComponentBuffers[T::Id].data()[entity * T::Size]`, so the value read
through it is whatever record is constructed at byte offset
`entity * sz` of buffer `cid` (`none` = uninitialized memory), with no
liveness, mask or bounds test. -/
def CWorld.GetComponent {PV : Type} (w : CWorld PV) (cid sz entity : Nat) :
    Option (PV × Nat) :=
  (w.componentBuffers cid).recs (entity * sz)

/-- Bounds-checked (`Option`-returning) embedding of the same read: yields
the slot at byte offset `entity * sz` when the whole record fits inside
the buffer's current length, and takes the out-of-bounds branch (`none`)
otherwise. -/
def CWorld.GetComponentChecked {PV : Type} (w : CWorld PV)
    (cid sz entity : Nat) : Option (PV × Nat) :=
  if entity * sz + sz ≤ (w.componentBuffers cid).len then
    (w.componentBuffers cid).recs (entity * sz)
  else none

/-- `CWorld::IsEntityAlive(entity)`: a linear scan of `m_DeletedEntities`
with `std::find`; returns true exactly when the id is not in the deque. -/
def CWorld.IsEntityAlive {PV : Type} (w : CWorld PV) (entity : Nat) : Bool :=
  w.deletedEntities.all (fun x => x != entity)

/-- `CWorld::GetEntities()`: the live-entity sparse set. -/
def CWorld.GetEntities {PV : Type} (w : CWorld PV) : SparseSet :=
  w.entities

/-- The class `CSystem`: inclusion mask, the two exclusion masks
(populated by `MatchEntitiesWith` / `ExcludeEntitiesWithAnyOf` /
`ExcludeEntitiesWithAllOf` before any notification arrives), and the
sparse set of matching entities. -/
structure CSystem where
  inclusionMask : Finset Nat
  exclusionMaskAny : Finset Nat
  exclusionMaskAll : Finset Nat
  matchingEntities : SparseSet

/-- A freshly constructed system with the given masks and an empty
matching set. -/
def CSystem.mkSystem (incl xAny xAll : Finset Nat) : CSystem :=
  ⟨incl, xAny, xAll, SparseSet.empty⟩

/-- The on-add listener body registered in the `CSystem` constructor:
return if `(entityMask & m_ExclusionMask_Any).any()`; return if
`(entityMask & m_ExclusionMask_All) == entityMask`; insert the entity
into the matching set if
`(componentMask & m_InclusionMask) == componentMask`. -/
def CSystem.onComponentAdded (s : CSystem) (entity : Nat)
    (entityMask compMask : Finset Nat) : CSystem :=
  if (entityMask ∩ s.exclusionMaskAny).Nonempty then s
  else if entityMask ∩ s.exclusionMaskAll = entityMask then s
  else if compMask ∩ s.inclusionMask = compMask then
    { s with matchingEntities := s.matchingEntities.insert entity }
  else s

/-- The on-remove listener body registered in the `CSystem` constructor:
the same guards, then erase the entity from the matching set if
`(componentMask & m_InclusionMask) == componentMask`. -/
def CSystem.onComponentRemoved (s : CSystem) (entity : Nat)
    (entityMask compMask : Finset Nat) : CSystem :=
  if (entityMask ∩ s.exclusionMaskAny).Nonempty then s
  else if entityMask ∩ s.exclusionMaskAll = entityMask then s
  else if compMask ∩ s.inclusionMask = compMask then
    { s with matchingEntities := s.matchingEntities.erase entity }
  else s

/-- A world together with its registered systems (each system registered
one on-add and one on-remove listener at construction). -/
structure WSys (PV : Type) where
  world : CWorld PV
  systems : List CSystem

/-- The `for (auto& fn : m_OnComponentAddedFunctions) fn(...)` loop: every
dispatched event is delivered to every system's on-add listener. -/
def dispatchAdded (systems : List CSystem) (evs : List AtlasEvent) :
    List CSystem :=
  evs.foldl (fun ss ev =>
    ss.map (fun s => s.onComponentAdded ev.entity ev.entityMask ev.compMask))
    systems

/-- The `for (auto& fn : m_OnComponentRemovedFunctions) fn(...)` loop. -/
def dispatchRemoved (systems : List CSystem) (evs : List AtlasEvent) :
    List CSystem :=
  evs.foldl (fun ss ev =>
    ss.map (fun s => s.onComponentRemoved ev.entity ev.entityMask ev.compMask))
    systems

/-- A world of `initialEntities` capacity with the given systems already
subscribed. -/
def WSys.init (PV : Type) (initialEntities : Nat) (systems : List CSystem) :
    WSys PV :=
  ⟨CWorld.init PV initialEntities, systems⟩

/-- `CreateEntity` dispatches no notification. -/
def WSys.CreateEntity {PV : Type} (ws : WSys PV) : WSys PV × Nat :=
  let r := ws.world.CreateEntity
  (⟨r.1, ws.systems⟩, r.2)

/-- `AddComponent` (single component) with on-add listener dispatch. -/
def WSys.AddComponent {PV : Type} (ws : WSys PV) (entity cid sz : Nat)
    (v : PV) : WSys PV × List AtlasEvent :=
  let r := ws.world.AddComponent_Single entity cid sz v
  (⟨r.1, dispatchAdded ws.systems r.2⟩, r.2)

/-- `RemoveComponent` with on-remove listener dispatch. -/
def WSys.RemoveComponent {PV : Type} (ws : WSys PV) (entity cid sz : Nat) :
    WSys PV × List AtlasEvent :=
  let r := ws.world.RemoveComponent entity cid sz
  (⟨r.1, dispatchRemoved ws.systems r.2⟩, r.2)

/-- `DestroyEntity` with on-remove listener dispatch (one bulk
notification). -/
def WSys.DestroyEntity {PV : Type} (ws : WSys PV) (entity : Nat) :
    WSys PV × List AtlasEvent :=
  let r := ws.world.DestroyEntity entity
  (⟨r.1, dispatchRemoved ws.systems r.2⟩, r.2)

/-- A public world operation.  A component type is identified by its
registry id `cid` (filter = singleton bit `cid`) together with its byte
size `sz`; the templated `CreateEntity<Components...>` of the source is
the sequence of a `create` followed by `add`s. -/
inductive Op (PV : Type) where
  | create : Op PV
  | add (entity cid sz : Nat) (v : PV) : Op PV
  | remove (entity cid sz : Nat) : Op PV
  | destroy (entity : Nat) : Op PV

/-- Execute one public operation, discarding the returned id / events. -/
def WSys.step {PV : Type} (ws : WSys PV) : Op PV → WSys PV
  | Op.create => ws.CreateEntity.1
  | Op.add e cid sz v => (ws.AddComponent e cid sz v).1
  | Op.remove e cid sz => (ws.RemoveComponent e cid sz).1
  | Op.destroy e => (ws.DestroyEntity e).1

/-- Execute a sequence of public operations. -/
def WSys.runOps {PV : Type} (ws : WSys PV) : List (Op PV) → WSys PV
  | [] => ws
  | op :: ops => (ws.step op).runOps ops

/-- Contract check for one operation: `add`/`remove` target a live entity
(the spec's precondition; the C++ code indexes the per-entity vectors
without any check, so a dead or never-created target is undefined
behaviour or silent corruption), and a fresh `create` stays below the
constructor reservation (the per-entity vectors
`m_ContainedComponentIDs` / `m_ComponentDestroyFunctions` never grow). -/
def WSys.validOp {PV : Type} (ws : WSys PV) : Op PV → Bool
  | Op.create =>
      !ws.world.deletedEntities.isEmpty ||
        decide (ws.world.largestEntityIndex < ws.world.initialEntities)
  | Op.add e _ _ _ => ws.world.entities.has e
  | Op.remove e _ _ => ws.world.entities.has e
  | Op.destroy _ => true

/-- Contract check for a whole operation sequence. -/
def WSys.ValidOps {PV : Type} (ws : WSys PV) : List (Op PV) → Bool
  | [] => true
  | op :: ops => ws.validOp op && (ws.step op).ValidOps ops

/-- Execute a sequence of public operations, also collecting the list of
entity ids returned by the `create` operations, in order. -/
def WSys.runAcc {PV : Type} (ws : WSys PV) : List (Op PV) → WSys PV × List Nat
  | [] => (ws, [])
  | Op.create :: ops =>
      let r := ws.CreateEntity
      let rr := r.1.runAcc ops
      (rr.1, r.2 :: rr.2)
  | op :: ops => (ws.step op).runAcc ops

/-- Iterated `AddComponent` with identical arguments, used to state that a
rejected add stays a no-op under repetition. -/
def WSys.repeatAdd {PV : Type} (ws : WSys PV) (entity cid sz : Nat) (v : PV) :
    Nat → WSys PV
  | 0 => ws
  | k + 1 => ((ws.AddComponent entity cid sz v).1).repeatAdd entity cid sz v k

/-- Modelled from the spec: the matching-set filter formula of §3 of the
specification, "S's matching set equals
`{ e live : (mask_e & Xa) == 0 AND (Xe == 0 OR (mask_e & Xe) != mask_e)
AND (mask_e & I) == I }`", written over the embedded state for comparison
with the behaviour of the code's listeners. -/
def specMatches {PV : Type} (ws : WSys PV) (s : CSystem) (e : Nat) : Prop :=
  ws.world.entities.has e = true ∧
  ws.world.entityMasks e ∩ s.exclusionMaskAny = ∅ ∧
  (s.exclusionMaskAll = ∅ ∨
    ws.world.entityMasks e ∩ s.exclusionMaskAll ≠ ws.world.entityMasks e) ∧
  ws.world.entityMasks e ∩ s.inclusionMask = s.inclusionMask

instance specMatchesDecidable {PV : Type} (ws : WSys PV) (s : CSystem)
    (e : Nat) : Decidable (specMatches ws s e) := by
  unfold specMatches
  infer_instance

theorem mask_inter_singleton_iff (m : Finset Nat) (c : Nat) :
    m ∩ {c} = {c} ↔ c ∈ m := by
  constructor
  · intro h
    have hc : c ∈ m ∩ {c} := by
      rw [h]
      exact Finset.mem_singleton_self c
    exact (Finset.mem_inter.mp hc).1
  · intro h
    ext x
    simp only [Finset.mem_inter, Finset.mem_singleton]
    constructor
    · exact fun hx => hx.2
    · rintro rfl
      exact ⟨h, rfl⟩

theorem union_singleton_sdiff (m : Finset Nat) (c : Nat) (h : c ∉ m) :
    (m ∪ {c}) \ {c} = m := by
  ext x
  simp only [Finset.mem_sdiff, Finset.mem_union, Finset.mem_singleton]
  constructor
  · rintro ⟨hx | hx, hne⟩
    · exact hx
    · exact absurd hx hne
  · intro hx
    exact ⟨Or.inl hx, fun hxc => h (hxc ▸ hx)⟩

theorem SparseSet.has_empty_reserve (n x : Nat) :
    (SparseSet.empty.reserve n).has x = false := by
  cases hb : (SparseSet.empty.reserve n).has x
  · rfl
  · obtain ⟨i, hi, _⟩ :=
      (SparseSet.has_iff (SparseSet.empty_reserve_WF n) x).mp hb
    rw [SparseSet.reserve_sz] at hi
    exact absurd hi (Nat.not_lt_zero i)

theorem CWorld.IsEntityAlive_iff {PV : Type} (w : CWorld PV) (x : Nat) :
    w.IsEntityAlive x = true ↔ x ∉ w.deletedEntities := by
  unfold CWorld.IsEntityAlive
  rw [List.all_eq_true]
  constructor
  · intro h hx
    have h2 := h x hx
    rw [bne_iff_ne] at h2
    exact h2 rfl
  · intro hnot y hy
    rw [bne_iff_ne]
    intro heq
    exact hnot (heq ▸ hy)

theorem AddComponent_Single_entities {PV : Type} (w : CWorld PV)
    (e cid sz : Nat) (v : PV) :
    ((w.AddComponent_Single e cid sz v).1).entities = w.entities ∧
    ((w.AddComponent_Single e cid sz v).1).deletedEntities =
      w.deletedEntities ∧
    ((w.AddComponent_Single e cid sz v).1).largestEntityIndex =
      w.largestEntityIndex ∧
    ((w.AddComponent_Single e cid sz v).1).initialEntities =
      w.initialEntities := by
  unfold CWorld.AddComponent_Single
  split <;> exact ⟨rfl, rfl, rfl, rfl⟩

theorem RemoveComponent_entities {PV : Type} (w : CWorld PV)
    (e cid sz : Nat) :
    ((w.RemoveComponent e cid sz).1).entities = w.entities ∧
    ((w.RemoveComponent e cid sz).1).deletedEntities = w.deletedEntities ∧
    ((w.RemoveComponent e cid sz).1).largestEntityIndex =
      w.largestEntityIndex ∧
    ((w.RemoveComponent e cid sz).1).initialEntities =
      w.initialEntities := by
  unfold CWorld.RemoveComponent
  split <;> exact ⟨rfl, rfl, rfl, rfl⟩

/-- The invariant connecting the live-entity sparse set, the deleted-ids
deque and the list of ids handed out by `create_entity` so far: the two
containers partition the created ids, and the possibly-dead recycling
deque never holds duplicates or foreign ids. -/
structure AliveInv {PV : Type} (ws : WSys PV) (created : List Nat) : Prop where
  wf : ws.world.entities.WF
  dnodup : ws.world.deletedEntities.Nodup
  ddead : ∀ x ∈ ws.world.deletedEntities,
    x ∈ created ∧ ws.world.entities.has x = false
  hascr : ∀ x, ws.world.entities.has x = true → x ∈ created
  crcov : ∀ x ∈ created,
    ws.world.entities.has x = true ∨ x ∈ ws.world.deletedEntities
  crlt : ∀ x ∈ created, x < ws.world.largestEntityIndex

theorem AliveInv_init (PV : Type) (n : Nat) (systems : List CSystem) :
    AliveInv (WSys.init PV n systems) [] := by
  refine ⟨SparseSet.empty_reserve_WF n, List.nodup_nil, ?_, ?_, ?_, ?_⟩
  · intro x hx
    exact absurd hx (List.not_mem_nil x)
  · intro x hx
    have hx' : (SparseSet.empty.reserve n).has x = true := hx
    rw [SparseSet.has_empty_reserve] at hx'
    exact Bool.noConfusion hx'
  · intro x hx
    exact absurd hx (List.not_mem_nil x)
  · intro x hx
    exact absurd hx (List.not_mem_nil x)

theorem AliveInv_of_eq {PV : Type} {ws ws' : WSys PV} {created : List Nat}
    (h : AliveInv ws created)
    (he : ws'.world.entities = ws.world.entities)
    (hd : ws'.world.deletedEntities = ws.world.deletedEntities)
    (hl : ws'.world.largestEntityIndex = ws.world.largestEntityIndex) :
    AliveInv ws' created := by
  refine ⟨?_, ?_, ?_, ?_, ?_, ?_⟩
  · rw [he]; exact h.wf
  · rw [hd]; exact h.dnodup
  · rw [hd, he]; exact h.ddead
  · rw [he]; exact h.hascr
  · rw [he, hd]; exact h.crcov
  · rw [hl]; exact h.crlt

theorem createEntity_AliveInv {PV : Type} (ws : WSys PV) (created : List Nat)
    (h : AliveInv ws created) :
    AliveInv ws.CreateEntity.1 (created ++ [ws.CreateEntity.2]) := by
  unfold WSys.CreateEntity CWorld.CreateEntity
  cases hdel : ws.world.deletedEntities with
  | nil =>
    dsimp only
    have hiff := SparseSet.has_insert h.wf ws.world.largestEntityIndex
    refine ⟨SparseSet.insert_WF h.wf _, ?_, ?_, ?_, ?_, ?_⟩
    · exact hdel ▸ h.dnodup
    · intro x hx
      exact absurd hx (List.not_mem_nil x)
    · intro x hx
      rcases (hiff x).mp hx with hx' | hx'
      · exact List.mem_append_right created (hx' ▸ List.mem_singleton_self _)
      · exact List.mem_append_left _ (h.hascr x hx')
    · intro x hx
      rcases List.mem_append.mp hx with hx' | hx'
      · rcases h.crcov x hx' with hh | hh
        · exact Or.inl ((hiff x).mpr (Or.inr hh))
        · rw [hdel] at hh
          exact absurd hh (List.not_mem_nil x)
      · left
        exact (hiff x).mpr (Or.inl (List.mem_singleton.mp hx'))
    · intro x hx
      rcases List.mem_append.mp hx with hx' | hx'
      · exact Nat.lt_succ_of_lt (h.crlt x hx')
      · rw [List.mem_singleton.mp hx']
        exact Nat.lt_succ_self _
  | cons e rest =>
    dsimp only
    have hed : e ∈ created ∧ ws.world.entities.has e = false := by
      refine h.ddead e ?_
      rw [hdel]
      exact List.mem_cons_self e rest
    have hnd : e ∉ rest ∧ rest.Nodup := by
      have := h.dnodup
      rw [hdel] at this
      exact List.nodup_cons.mp this
    have hiff := SparseSet.has_insert h.wf e
    refine ⟨SparseSet.insert_WF h.wf _, hnd.2, ?_, ?_, ?_, ?_⟩
    · intro x hx
      have hxdel : x ∈ ws.world.deletedEntities := by
        rw [hdel]
        exact List.mem_cons_of_mem e hx
      refine ⟨List.mem_append_left _ (h.ddead x hxdel).1, ?_⟩
      cases hb : ((ws.world.entities.insert e).has x)
      · rfl
      · rcases (hiff x).mp hb with hx' | hx'
        · exact absurd (hx' ▸ hx) hnd.1
        · rw [(h.ddead x hxdel).2] at hx'
          exact hx'.symm
    · intro x hx
      rcases (hiff x).mp hx with hx' | hx'
      · exact List.mem_append_left _ (hx' ▸ hed.1)
      · exact List.mem_append_left _ (h.hascr x hx')
    · intro x hx
      rcases List.mem_append.mp hx with hx' | hx'
      · rcases h.crcov x hx' with hh | hh
        · exact Or.inl ((hiff x).mpr (Or.inr hh))
        · rw [hdel] at hh
          rcases List.mem_cons.mp hh with hh' | hh'
          · exact Or.inl ((hiff x).mpr (Or.inl hh'))
          · exact Or.inr hh'
      · exact Or.inl ((hiff x).mpr (Or.inl (List.mem_singleton.mp hx')))
    · intro x hx
      rcases List.mem_append.mp hx with hx' | hx'
      · exact h.crlt x hx'
      · rw [List.mem_singleton.mp hx']
        exact h.crlt e hed.1

theorem destroyEntity_AliveInv {PV : Type} (ws : WSys PV) (eD : Nat)
    (created : List Nat) (h : AliveInv ws created) :
    AliveInv (ws.DestroyEntity eD).1 created := by
  unfold WSys.DestroyEntity CWorld.DestroyEntity
  split
  · rename_i hhas
    dsimp only
    have hiff := SparseSet.has_erase h.wf eD
    have heDnot : eD ∉ ws.world.deletedEntities := by
      intro hmem
      have := (h.ddead eD hmem).2
      rw [hhas] at this
      exact Bool.noConfusion this
    refine ⟨SparseSet.erase_WF h.wf _, ?_, ?_, ?_, ?_, ?_⟩
    · exact List.nodup_cons.mpr ⟨heDnot, h.dnodup⟩
    · intro x hx
      rcases List.mem_cons.mp hx with hx' | hx'
      · subst hx'
        refine ⟨h.hascr x hhas, ?_⟩
        cases hb : ((ws.world.entities.erase x).has x)
        · rfl
        · exact absurd rfl ((hiff x).mp hb).2
      · refine ⟨(h.ddead x hx').1, ?_⟩
        cases hb : ((ws.world.entities.erase eD).has x)
        · rfl
        · have := ((hiff x).mp hb).1
          rw [(h.ddead x hx').2] at this
          exact this.symm
    · intro x hx
      exact h.hascr x ((hiff x).mp hx).1
    · intro x hx
      rcases h.crcov x hx with hh | hh
      · by_cases hxe : x = eD
        · exact Or.inr (hxe ▸ List.mem_cons_self eD _)
        · exact Or.inl ((hiff x).mpr ⟨hh, hxe⟩)
      · exact Or.inr (List.mem_cons_of_mem eD hh)
    · exact h.crlt
  · exact AliveInv_of_eq h rfl rfl rfl

theorem addComponent_AliveInv {PV : Type} (ws : WSys PV)
    (e cid sz : Nat) (v : PV) (created : List Nat) (h : AliveInv ws created) :
    AliveInv (ws.AddComponent e cid sz v).1 created :=
  AliveInv_of_eq h (AddComponent_Single_entities ws.world e cid sz v).1
    (AddComponent_Single_entities ws.world e cid sz v).2.1
    (AddComponent_Single_entities ws.world e cid sz v).2.2.1

theorem removeComponent_AliveInv {PV : Type} (ws : WSys PV)
    (e cid sz : Nat) (created : List Nat) (h : AliveInv ws created) :
    AliveInv (ws.RemoveComponent e cid sz).1 created :=
  AliveInv_of_eq h (RemoveComponent_entities ws.world e cid sz).1
    (RemoveComponent_entities ws.world e cid sz).2.1
    (RemoveComponent_entities ws.world e cid sz).2.2.1

theorem runAcc_AliveInv {PV : Type} (ops : List (Op PV)) :
    ∀ (ws : WSys PV) (created : List Nat), AliveInv ws created →
      AliveInv (ws.runAcc ops).1 (created ++ (ws.runAcc ops).2) := by
  induction ops with
  | nil =>
    intro ws created h
    simpa [WSys.runAcc] using h
  | cons op ops ih =>
    intro ws created h
    cases op with
    | create =>
      have h2 := ih ws.CreateEntity.1 (created ++ [ws.CreateEntity.2])
        (createEntity_AliveInv ws created h)
      simpa [WSys.runAcc, List.append_assoc] using h2
    | add e cid sz v =>
      exact ih _ _ (addComponent_AliveInv ws e cid sz v created h)
    | remove e cid sz =>
      exact ih _ _ (removeComponent_AliveInv ws e cid sz created h)
    | destroy e =>
      exact ih _ _ (destroyEntity_AliveInv ws e created h)

theorem card_filter_update_gain {s : Finset Nat} {P Q : Nat → Prop}
    [DecidablePred P] [DecidablePred Q] {e : Nat}
    (he : e ∈ s) (hPe : ¬ P e) (hQe : Q e)
    (hagree : ∀ x, x ≠ e → (Q x ↔ P x)) :
    (s.filter Q).card = (s.filter P).card + 1 := by
  have hset : s.filter Q = insert e (s.filter P) := by
    ext x
    by_cases hx : x = e
    · subst hx
      simp only [Finset.mem_filter, Finset.mem_insert, true_or, iff_true, he,
        hQe, and_true, eq_self_iff_true]
    · simp only [Finset.mem_filter, Finset.mem_insert, hx, false_or,
      hagree x hx]
  rw [hset, Finset.card_insert_of_not_mem]
  simp only [Finset.mem_filter, not_and]
  exact fun _ => hPe

theorem card_filter_update_loss {s : Finset Nat} {P Q : Nat → Prop}
    [DecidablePred P] [DecidablePred Q] {e : Nat}
    (he : e ∈ s) (hPe : P e) (hQe : ¬ Q e)
    (hagree : ∀ x, x ≠ e → (Q x ↔ P x)) :
    (s.filter P).card = (s.filter Q).card + 1 :=
  card_filter_update_gain he hQe hPe (fun x hx => (hagree x hx).symm)

theorem card_filter_congr_pred {s : Finset Nat} {P Q : Nat → Prop}
    [DecidablePred P] [DecidablePred Q]
    (h : ∀ x ∈ s, (Q x ↔ P x)) :
    (s.filter Q).card = (s.filter P).card := by
  have hset : s.filter Q = s.filter P := by
    ext x
    simp only [Finset.mem_filter]
    constructor
    · rintro ⟨hx, hq⟩
      exact ⟨hx, (h x hx).mp hq⟩
    · rintro ⟨hx, hp⟩
      exact ⟨hx, (h x hx).mpr hp⟩
  rw [hset]

theorem decValidComponents_fst (ids : List Nat) :
    ∀ (vc : Nat → Nat × Nat), ids.Nodup → ∀ c,
      (decValidComponents vc ids c).1 =
        if c ∈ ids then (vc c).1 - 1 else (vc c).1 := by
  induction ids with
  | nil =>
    intro vc _ c
    simp [decValidComponents]
  | cons a rest ih =>
    intro vc hnd c
    have hnd' := List.nodup_cons.mp hnd
    have hstep : decValidComponents vc (a :: rest) =
        decValidComponents
          (Function.update vc a ((vc a).1 - 1, (vc a).2)) rest := rfl
    rw [hstep, ih _ hnd'.2 c]
    by_cases hca : c = a
    · subst hca
      rw [if_neg hnd'.1, if_pos (List.mem_cons_self c rest)]
      rw [Function.update_same]
    · rw [Function.update_noteq hca]
      by_cases hcr : c ∈ rest
      · rw [if_pos hcr, if_pos (List.mem_cons_of_mem a hcr)]
      · rw [if_neg hcr, if_neg (by
          intro hmem
          rcases List.mem_cons.mp hmem with hh | hh
          · exact hca hh
          · exact hcr hh)]

/-- The world invariant behind the count-exactness property: a well formed
live set bounded by the allocation counter, a duplicate-free deleted
deque disjoint from the live set, clean per-entity state for every id
outside the live set, agreement between the attached-id lists and the
mask bits, and each `m_ValidComponents[c].first` equal to the number of
entity rows whose mask has bit `c`.  It holds after every contract-
respecting public operation. -/
structure WInv {PV : Type} (ws : WSys PV) : Prop where
  wf : ws.world.entities.WF
  liveLt : ∀ e, ws.world.entities.has e = true →
    e < ws.world.largestEntityIndex
  delLt : ∀ e ∈ ws.world.deletedEntities, e < ws.world.largestEntityIndex
  delDead : ∀ e ∈ ws.world.deletedEntities,
    ws.world.entities.has e = false
  delNodup : ws.world.deletedEntities.Nodup
  deadClean : ∀ e, ws.world.entities.has e = false →
    ws.world.entityMasks e = ∅ ∧ ws.world.containedComponentIDs e = []
  contMask : ∀ e c, c ∈ ws.world.containedComponentIDs e ↔
    c ∈ ws.world.entityMasks e
  contNodup : ∀ e, (ws.world.containedComponentIDs e).Nodup
  countEq : ∀ c, (ws.world.validComponents c).1 =
    ((Finset.range ws.world.largestEntityIndex).filter
      (fun e => c ∈ ws.world.entityMasks e)).card

theorem WInv_init (PV : Type) (n : Nat) (systems : List CSystem) :
    WInv (WSys.init PV n systems) := by
  refine ⟨SparseSet.empty_reserve_WF n, ?_, ?_, ?_, List.nodup_nil, ?_, ?_,
    ?_, ?_⟩
  · intro e he
    have he' : (SparseSet.empty.reserve n).has e = true := he
    rw [SparseSet.has_empty_reserve] at he'
    exact Bool.noConfusion he'
  · intro e he
    exact absurd he (List.not_mem_nil e)
  · intro e he
    exact absurd he (List.not_mem_nil e)
  · intro e _
    exact ⟨rfl, rfl⟩
  · intro e c
    simp [WSys.init, CWorld.init]
  · intro e
    exact List.nodup_nil
  · intro c
    simp [WSys.init, CWorld.init]

theorem createEntity_WInv {PV : Type} (ws : WSys PV) (h : WInv ws) :
    WInv ws.CreateEntity.1 := by
  unfold WSys.CreateEntity CWorld.CreateEntity
  cases hdel : ws.world.deletedEntities with
  | nil =>
    dsimp only
    have hLfalse : ws.world.entities.has ws.world.largestEntityIndex =
        false := by
      cases hb : ws.world.entities.has ws.world.largestEntityIndex
      · rfl
      · exact absurd (h.liveLt _ hb) (lt_irrefl _)
    have hmaskL : ws.world.entityMasks ws.world.largestEntityIndex = ∅ :=
      (h.deadClean _ hLfalse).1
    have hmupd : Function.update ws.world.entityMasks
        ws.world.largestEntityIndex ∅ = ws.world.entityMasks := by
      rw [← hmaskL]
      exact Function.update_eq_self _ _
    have hiff := SparseSet.has_insert h.wf ws.world.largestEntityIndex
    refine ⟨SparseSet.insert_WF h.wf _, ?_, ?_, ?_, List.nodup_nil, ?_, ?_,
      h.contNodup, ?_⟩
    · intro e he
      rcases (hiff e).mp he with he' | he'
      · rw [he']
        exact Nat.lt_succ_self _
      · exact Nat.lt_succ_of_lt (h.liveLt e he')
    · intro e he
      exact absurd he (List.not_mem_nil e)
    · intro e he
      exact absurd he (List.not_mem_nil e)
    · intro e he
      rw [hmupd]
      refine h.deadClean e ?_
      cases hb : ws.world.entities.has e
      · rfl
      · have hcontra : (ws.world.entities.insert
            ws.world.largestEntityIndex).has e = true :=
          (hiff e).mpr (Or.inr hb)
        rw [he] at hcontra
        exact Bool.noConfusion hcontra
    · intro e c
      rw [hmupd]
      exact h.contMask e c
    · intro c
      rw [hmupd, h.countEq c]
      have hcL : ¬ c ∈ ws.world.entityMasks ws.world.largestEntityIndex := by
        rw [hmaskL]
        exact Finset.not_mem_empty c
      rw [Finset.range_succ, Finset.filter_insert, if_neg hcL]
  | cons e rest =>
    dsimp only
    have hmem : e ∈ ws.world.deletedEntities := by
      rw [hdel]
      exact List.mem_cons_self e rest
    have hed : ws.world.entities.has e = false := h.delDead e hmem
    have helt : e < ws.world.largestEntityIndex := h.delLt e hmem
    have hnd := h.delNodup
    rw [hdel] at hnd
    have hnd' := List.nodup_cons.mp hnd
    have hiff := SparseSet.has_insert h.wf e
    refine ⟨SparseSet.insert_WF h.wf e, ?_, ?_, ?_, hnd'.2, ?_,
      h.contMask, h.contNodup, h.countEq⟩
    · intro x hx
      rcases (hiff x).mp hx with hx' | hx'
      · rw [hx']
        exact helt
      · exact h.liveLt x hx'
    · intro x hx
      refine h.delLt x ?_
      rw [hdel]
      exact List.mem_cons_of_mem e hx
    · intro x hx
      cases hb : (ws.world.entities.insert e).has x
      · rfl
      · rcases (hiff x).mp hb with hx' | hx'
        · exact absurd (hx' ▸ hx) hnd'.1
        · have hxf := h.delDead x (by
            rw [hdel]
            exact List.mem_cons_of_mem e hx)
          rw [hxf] at hx'
          exact hx'.symm
    · intro x hx
      refine h.deadClean x ?_
      cases hb : ws.world.entities.has x
      · rfl
      · have hcontra : (ws.world.entities.insert e).has x = true :=
          (hiff x).mpr (Or.inr hb)
        rw [hx] at hcontra
        exact Bool.noConfusion hcontra

theorem addComponent_WInv {PV : Type} (ws : WSys PV) (e cid sz : Nat)
    (v : PV) (hlive : ws.world.entities.has e = true) (h : WInv ws) :
    WInv (ws.AddComponent e cid sz v).1 := by
  unfold WSys.AddComponent CWorld.AddComponent_Single
  split
  · exact ⟨h.wf, h.liveLt, h.delLt, h.delDead, h.delNodup, h.deadClean,
      h.contMask, h.contNodup, h.countEq⟩
  · rename_i hguard
    have hcid : cid ∉ ws.world.entityMasks e := fun hmem =>
      hguard ((mask_inter_singleton_iff _ cid).mpr hmem)
    dsimp only
    refine ⟨h.wf, h.liveLt, h.delLt, h.delDead, h.delNodup, ?_, ?_, ?_, ?_⟩
    all_goals dsimp only
    · intro x hx
      have hxe : x ≠ e := by
        intro hxe
        rw [hxe, hlive] at hx
        exact Bool.noConfusion hx
      rw [Function.update_noteq hxe, Function.update_noteq hxe]
      exact h.deadClean x hx
    · intro x c
      by_cases hxe : x = e
      · subst hxe
        rw [Function.update_same, Function.update_same]
        simp only [List.mem_cons, Finset.mem_union, Finset.mem_singleton]
        constructor
        · rintro (rfl | hc)
          · exact Or.inr rfl
          · exact Or.inl ((h.contMask x c).mp hc)
        · rintro (hc | rfl)
          · exact Or.inr ((h.contMask x c).mpr hc)
          · exact Or.inl rfl
      · rw [Function.update_noteq hxe, Function.update_noteq hxe]
        exact h.contMask x c
    · intro x
      by_cases hxe : x = e
      · subst hxe
        rw [Function.update_same]
        refine List.nodup_cons.mpr ⟨?_, h.contNodup x⟩
        intro hmem
        exact hcid ((h.contMask x cid).mp hmem)
      · rw [Function.update_noteq hxe]
        exact h.contNodup x
    · intro c
      by_cases hc : c = cid
      · subst hc
        rw [Function.update_same]
        have hgain := card_filter_update_gain
          (s := Finset.range ws.world.largestEntityIndex)
          (P := fun x => c ∈ ws.world.entityMasks x)
          (Q := fun x => c ∈ Function.update ws.world.entityMasks e
            (ws.world.entityMasks e ∪ {c}) x)
          (e := e) (Finset.mem_range.mpr (h.liveLt e hlive)) hcid
          (by
            dsimp only
            rw [Function.update_same]
            exact Finset.mem_union_right _ (Finset.mem_singleton_self c))
          (fun x hx => by
            dsimp only
            rw [Function.update_noteq hx])
        rw [h.countEq c]
        exact hgain.symm
      · rw [Function.update_noteq hc, h.countEq c]
        refine (card_filter_congr_pred ?_).symm
        intro x hx
        by_cases hxe : x = e
        · subst hxe
          rw [Function.update_same]
          simp only [Finset.mem_union, Finset.mem_singleton]
          constructor
          · rintro (hcm | hcm)
            · exact hcm
            · exact absurd hcm hc
          · exact fun hcm => Or.inl hcm
        · rw [Function.update_noteq hxe]

theorem removeComponent_WInv {PV : Type} (ws : WSys PV) (e cid sz : Nat)
    (hlive : ws.world.entities.has e = true) (h : WInv ws) :
    WInv (ws.RemoveComponent e cid sz).1 := by
  unfold WSys.RemoveComponent CWorld.RemoveComponent
  split
  · rename_i hguard
    have hcid : cid ∈ ws.world.entityMasks e :=
      (mask_inter_singleton_iff _ cid).mp hguard
    dsimp only
    refine ⟨h.wf, h.liveLt, h.delLt, h.delDead, h.delNodup, ?_, ?_, ?_, ?_⟩
    all_goals dsimp only
    · intro x hx
      have hxe : x ≠ e := by
        intro hxe
        rw [hxe, hlive] at hx
        exact Bool.noConfusion hx
      rw [Function.update_noteq hxe, Function.update_noteq hxe]
      exact h.deadClean x hx
    · intro x c
      by_cases hxe : x = e
      · subst hxe
        rw [Function.update_same, Function.update_same]
        simp only [List.mem_filter, Finset.mem_sdiff, Finset.mem_singleton,
          bne_iff_ne, ne_eq]
        constructor
        · rintro ⟨hc, hne⟩
          exact ⟨(h.contMask x c).mp hc, hne⟩
        · rintro ⟨hc, hne⟩
          exact ⟨(h.contMask x c).mpr hc, hne⟩
      · rw [Function.update_noteq hxe, Function.update_noteq hxe]
        exact h.contMask x c
    · intro x
      by_cases hxe : x = e
      · subst hxe
        rw [Function.update_same]
        exact (h.contNodup x).filter _
      · rw [Function.update_noteq hxe]
        exact h.contNodup x
    · intro c
      by_cases hc : c = cid
      · subst hc
        rw [Function.update_same]
        have hloss := card_filter_update_loss
          (s := Finset.range ws.world.largestEntityIndex)
          (P := fun x => c ∈ ws.world.entityMasks x)
          (Q := fun x => c ∈ Function.update ws.world.entityMasks e
            (ws.world.entityMasks e \ {c}) x)
          (e := e) (Finset.mem_range.mpr (h.liveLt e hlive)) hcid
          (by
            dsimp only
            rw [Function.update_same]
            simp)
          (fun x hx => by
            dsimp only
            rw [Function.update_noteq hx])
        rw [h.countEq c, hloss]
        dsimp only
        omega
      · rw [Function.update_noteq hc, h.countEq c]
        refine (card_filter_congr_pred ?_).symm
        intro x hx
        by_cases hxe : x = e
        · subst hxe
          rw [Function.update_same]
          simp only [Finset.mem_sdiff, Finset.mem_singleton]
          constructor
          · exact fun hcm => hcm.1
          · exact fun hcm => ⟨hcm, hc⟩
        · rw [Function.update_noteq hxe]
  · exact ⟨h.wf, h.liveLt, h.delLt, h.delDead, h.delNodup, h.deadClean,
      h.contMask, h.contNodup, h.countEq⟩

theorem destroyEntity_WInv {PV : Type} (ws : WSys PV) (eD : Nat)
    (h : WInv ws) : WInv (ws.DestroyEntity eD).1 := by
  unfold WSys.DestroyEntity CWorld.DestroyEntity
  split
  · rename_i hhas
    dsimp only
    have hiff := SparseSet.has_erase h.wf eD
    have heDlt := h.liveLt eD hhas
    have heDnot : eD ∉ ws.world.deletedEntities := by
      intro hmem
      have hcontra := h.delDead eD hmem
      rw [hhas] at hcontra
      exact Bool.noConfusion hcontra
    refine ⟨SparseSet.erase_WF h.wf eD, ?_, ?_, ?_, ?_, ?_, ?_, ?_, ?_⟩
    all_goals dsimp only
    · intro x hx
      exact h.liveLt x ((hiff x).mp hx).1
    · intro x hx
      rcases List.mem_cons.mp hx with hx' | hx'
      · rw [hx']
        exact heDlt
      · exact h.delLt x hx'
    · intro x hx
      cases hb : (ws.world.entities.erase eD).has x
      · rfl
      · exfalso
        have hx2 := (hiff x).mp hb
        rcases List.mem_cons.mp hx with hx' | hx'
        · exact hx2.2 hx'
        · have hdd := h.delDead x hx'
          rw [hx2.1] at hdd
          exact Bool.noConfusion hdd
    · exact List.nodup_cons.mpr ⟨heDnot, h.delNodup⟩
    · intro x hx
      by_cases hxe : x = eD
      · subst hxe
        rw [Function.update_same, Function.update_same]
        exact ⟨rfl, rfl⟩
      · rw [Function.update_noteq hxe, Function.update_noteq hxe]
        refine h.deadClean x ?_
        cases hb : ws.world.entities.has x
        · rfl
        · have hcontra : (ws.world.entities.erase eD).has x = true :=
            (hiff x).mpr ⟨hb, hxe⟩
          rw [hx] at hcontra
          exact Bool.noConfusion hcontra
    · intro x c
      by_cases hxe : x = eD
      · subst hxe
        rw [Function.update_same, Function.update_same]
        simp only [List.not_mem_nil, Finset.not_mem_empty]
      · rw [Function.update_noteq hxe, Function.update_noteq hxe]
        exact h.contMask x c
    · intro x
      by_cases hxe : x = eD
      · subst hxe
        rw [Function.update_same]
        exact List.nodup_nil
      · rw [Function.update_noteq hxe]
        exact h.contNodup x
    · intro c
      rw [decValidComponents_fst _ _ (h.contNodup eD) c]
      by_cases hcm : c ∈ ws.world.entityMasks eD
      · rw [if_pos ((h.contMask eD c).mpr hcm)]
        have hloss := card_filter_update_loss
          (s := Finset.range ws.world.largestEntityIndex)
          (P := fun x => c ∈ ws.world.entityMasks x)
          (Q := fun x => c ∈ Function.update ws.world.entityMasks eD ∅ x)
          (e := eD) (Finset.mem_range.mpr heDlt) hcm
          (by
            dsimp only
            rw [Function.update_same]
            exact Finset.not_mem_empty c)
          (fun x hx => by
            dsimp only
            rw [Function.update_noteq hx])
        rw [h.countEq c, hloss]
        omega
      · rw [if_neg (fun hmem => hcm ((h.contMask eD c).mp hmem))]
        rw [h.countEq c]
        refine (card_filter_congr_pred ?_).symm
        intro x hx
        by_cases hxe : x = eD
        · subst hxe
          rw [Function.update_same]
          simp only [Finset.not_mem_empty, false_iff]
          exact hcm
        · rw [Function.update_noteq hxe]
  · exact ⟨h.wf, h.liveLt, h.delLt, h.delDead, h.delNodup, h.deadClean,
      h.contMask, h.contNodup, h.countEq⟩

theorem runOps_WInv {PV : Type} (ops : List (Op PV)) :
    ∀ ws : WSys PV, WInv ws → ws.ValidOps ops = true →
      WInv (ws.runOps ops) := by
  induction ops with
  | nil =>
    intro ws h _
    exact h
  | cons op ops ih =>
    intro ws h hv
    have hsplit : ws.validOp op = true ∧
        (ws.step op).ValidOps ops = true := by
      have hv' : (ws.validOp op && (ws.step op).ValidOps ops) = true := hv
      simp only [Bool.and_eq_true] at hv'
      exact hv'
    cases op with
    | create =>
      exact ih _ (createEntity_WInv ws h) hsplit.2
    | add e cid sz v =>
      exact ih _ (addComponent_WInv ws e cid sz v hsplit.1 h) hsplit.2
    | remove e cid sz =>
      exact ih _ (removeComponent_WInv ws e cid sz hsplit.1 h) hsplit.2
    | destroy e =>
      exact ih _ (destroyEntity_WInv ws e h) hsplit.2

/-- C9: if entity `e` already has component type `cid` (its mask bit is
set), `add_component` changes no world state — stores, masks,
contained-id lists, destroy hooks, valid counts, live set, recycled
queue and every registered system are all unchanged — and dispatches no
on-add event; repeating the call any number of times remains a no-op. -/
theorem C9_already_present_noop {PV : Type} (ws : WSys PV)
    (e cid sz : Nat) (v : PV) (hmem : cid ∈ ws.world.entityMasks e) :
    ws.AddComponent e cid sz v = (ws, []) ∧
    ∀ k, ws.repeatAdd e cid sz v k = ws := by
  have hbase : ws.AddComponent e cid sz v = (ws, []) := by
    unfold WSys.AddComponent CWorld.AddComponent_Single
    rw [if_pos ((mask_inter_singleton_iff _ cid).mpr hmem)]
    rfl
  refine ⟨hbase, ?_⟩
  intro k
  induction k with
  | zero => rfl
  | succ k ih =>
    have h1 : (ws.AddComponent e cid sz v).1 = ws := by rw [hbase]
    calc ws.repeatAdd e cid sz v (k + 1)
        = ((ws.AddComponent e cid sz v).1).repeatAdd e cid sz v k := rfl
      _ = ws.repeatAdd e cid sz v k := by rw [h1]
      _ = ws := ih

/-- Witness for C9 at a concrete world: entity 0 of a freshly created
world already carries component 0, and the repeated add is a no-op. -/
theorem C9_already_present_noop_witness :
    0 ∈ (WSys.runOps (WSys.init Nat 4 [])
      [Op.create, Op.add 0 0 4 7]).world.entityMasks 0 ∧
    (WSys.runOps (WSys.init Nat 4 [])
        [Op.create, Op.add 0 0 4 7]).AddComponent 0 0 4 9 =
      (WSys.runOps (WSys.init Nat 4 []) [Op.create, Op.add 0 0 4 7], []) ∧
    (WSys.runOps (WSys.init Nat 4 [])
        [Op.create, Op.add 0 0 4 7]).repeatAdd 0 0 4 9 3 =
      WSys.runOps (WSys.init Nat 4 []) [Op.create, Op.add 0 0 4 7] :=
  ⟨by decide,
    (C9_already_present_noop _ 0 0 4 9 (by decide)).1,
    (C9_already_present_noop _ 0 0 4 9 (by decide)).2 3⟩

/-- C8: listener-notification asymmetry.  For every effective
`remove_component` the (unique, broadcast) on-remove notification still
carries the mask with bit `cid` set and the bit is cleared only in the
state after dispatch; for every effective `add_component` the on-add
notification carries the mask with bit `cid` already set. -/
theorem C8_listener_mask_asymmetry {PV : Type} :
    (∀ (ws : WSys PV) (e cid sz : Nat),
      cid ∈ ws.world.entityMasks e →
        (∀ ev ∈ (ws.RemoveComponent e cid sz).2, cid ∈ ev.entityMask) ∧
        (ws.RemoveComponent e cid sz).1.world.entityMasks e =
          ws.world.entityMasks e \ {cid}) ∧
    (∀ (ws : WSys PV) (e cid sz : Nat) (v : PV),
      cid ∉ ws.world.entityMasks e →
        ∀ ev ∈ (ws.AddComponent e cid sz v).2, cid ∈ ev.entityMask) := by
  constructor
  · intro ws e cid sz hmem
    unfold WSys.RemoveComponent CWorld.RemoveComponent
    rw [if_pos ((mask_inter_singleton_iff _ cid).mpr hmem)]
    constructor
    · intro ev hev
      have hev' : ev = ⟨e, ws.world.entityMasks e, {cid}⟩ :=
        List.mem_singleton.mp hev
      rw [hev']
      exact hmem
    · dsimp only
      rw [Function.update_same]
  · intro ws e cid sz v hmem
    unfold WSys.AddComponent CWorld.AddComponent_Single
    rw [if_neg (fun hx => hmem ((mask_inter_singleton_iff _ cid).mp hx))]
    intro ev hev
    have hev' : ev = ⟨e, ws.world.entityMasks e ∪ {cid}, {cid}⟩ :=
      List.mem_singleton.mp hev
    rw [hev']
    exact Finset.mem_union_right _ (Finset.mem_singleton_self cid)

/-- Witness for C8 at a concrete world: removing component 0 from entity
0 notifies with the bit still set and clears it afterwards; adding
component 1 notifies with the bit already set. -/
theorem C8_listener_mask_asymmetry_witness :
    0 ∈ (WSys.runOps (WSys.init Nat 4 [])
      [Op.create, Op.add 0 0 4 7]).world.entityMasks 0 ∧
    ((∀ ev ∈ ((WSys.runOps (WSys.init Nat 4 [])
          [Op.create, Op.add 0 0 4 7]).RemoveComponent 0 0 4).2,
        0 ∈ ev.entityMask) ∧
      ((WSys.runOps (WSys.init Nat 4 [])
          [Op.create, Op.add 0 0 4 7]).RemoveComponent 0 0 4).1.world.entityMasks 0 =
        (WSys.runOps (WSys.init Nat 4 [])
          [Op.create, Op.add 0 0 4 7]).world.entityMasks 0 \ {0}) ∧
    1 ∉ (WSys.runOps (WSys.init Nat 4 [])
      [Op.create, Op.add 0 0 4 7]).world.entityMasks 0 ∧
    (∀ ev ∈ ((WSys.runOps (WSys.init Nat 4 [])
        [Op.create, Op.add 0 0 4 7]).AddComponent 0 1 4 9).2,
      1 ∈ ev.entityMask) :=
  ⟨by decide,
    C8_listener_mask_asymmetry.1 _ 0 0 4 (by decide),
    by decide,
    C8_listener_mask_asymmetry.2 _ 0 1 4 9 (by decide)⟩

/-- C6 (amended): for every world state, live entity `e`, component type
`(cid, sz)` and value `v` such that bit `cid` of the entity's mask is
clear — i.e. the add is effective — the pair
`add_component; remove_component` restores `entity_masks[e]` and
`valid_count[cid]` to their values before the pair.  (The original claim
omitted the bit-clear precondition; see the counterexample.) -/
theorem C6_round_trip {PV : Type} (ws : WSys PV) (e cid sz : Nat) (v : PV)
    (hlive : ws.world.entities.has e = true)
    (hfresh : cid ∉ ws.world.entityMasks e) :
    (((ws.AddComponent e cid sz v).1).RemoveComponent e cid sz).1.world.entityMasks e =
      ws.world.entityMasks e ∧
    ((((ws.AddComponent e cid sz v).1).RemoveComponent e cid sz).1.world.validComponents cid).1 =
      (ws.world.validComponents cid).1 := by
  unfold WSys.AddComponent CWorld.AddComponent_Single
  rw [if_neg (fun hmem => hfresh ((mask_inter_singleton_iff _ cid).mp hmem))]
  unfold WSys.RemoveComponent CWorld.RemoveComponent
  dsimp only
  rw [if_pos (by
    rw [Function.update_same]
    exact (mask_inter_singleton_iff _ cid).mpr
      (Finset.mem_union_right _ (Finset.mem_singleton_self cid)))]
  dsimp only
  constructor
  · simp only [Function.update_same]
    exact union_singleton_sdiff _ _ hfresh
  · simp only [Function.update_same]
    omega

/-- Witness for C6 at a concrete world: entity 0 is live and lacks
component 0, and the add/remove pair restores its mask and the count. -/
theorem C6_round_trip_witness :
    (WSys.runOps (WSys.init Nat 4 [])
      [Op.create]).world.entities.has 0 = true ∧
    0 ∉ (WSys.runOps (WSys.init Nat 4 []) [Op.create]).world.entityMasks 0 ∧
    ((((WSys.runOps (WSys.init Nat 4 [])
        [Op.create]).AddComponent 0 0 4 7).1).RemoveComponent 0 0 4).1.world.entityMasks 0 =
      (WSys.runOps (WSys.init Nat 4 []) [Op.create]).world.entityMasks 0 ∧
    (((((WSys.runOps (WSys.init Nat 4 [])
        [Op.create]).AddComponent 0 0 4 7).1).RemoveComponent 0 0 4).1.world.validComponents 0).1 =
      ((WSys.runOps (WSys.init Nat 4 [])
        [Op.create]).world.validComponents 0).1 :=
  ⟨by decide, by decide,
    (C6_round_trip _ 0 0 4 7 (by decide) (by decide)).1,
    (C6_round_trip _ 0 0 4 7 (by decide) (by decide)).2⟩

/-- C6: counterexample to the claim as stated.  Entity 0 is live and
already carries component 0; executing the pair
`add_component<0>(0, 9); remove_component<0>(0)` does not restore
`entity_masks[0]` (the add is rejected but the remove is effective, so
the bit ends cleared), contradicting the claim, which quantifies over
every live entity without excluding the already-present case. -/
theorem C6_counterexample :
    (WSys.runOps (WSys.init Nat 4 [])
      [Op.create, Op.add 0 0 4 7]).world.entities.has 0 = true ∧
    ((((WSys.runOps (WSys.init Nat 4 [])
        [Op.create, Op.add 0 0 4 7]).AddComponent 0 0 4 9).1).RemoveComponent 0 0 4).1.world.entityMasks 0 ≠
      (WSys.runOps (WSys.init Nat 4 [])
        [Op.create, Op.add 0 0 4 7]).world.entityMasks 0 := by
  decide

/-- C5 (amended): freed entity ids are recycled in LIFO order.
`destroy_entity` pushes the destroyed id onto the front of the
recycled-id deque (`push_front`), and `create_entity` pops the front, so
immediately after destroying a live entity `e` the next `create_entity`
returns `e` — the most recently destroyed id, not the earliest one. -/
theorem C5_lifo_recycling {PV : Type} (ws : WSys PV) (e : Nat)
    (hlive : ws.world.entities.has e = true) :
    (ws.DestroyEntity e).1.world.deletedEntities =
      e :: ws.world.deletedEntities ∧
    ((ws.DestroyEntity e).1.CreateEntity).2 = e := by
  unfold WSys.DestroyEntity CWorld.DestroyEntity
  rw [if_pos hlive]
  exact ⟨rfl, rfl⟩

/-- Witness for C5 at a concrete world: destroying live entity 0 pushes
it to the front and the next create returns it. -/
theorem C5_lifo_recycling_witness :
    (WSys.runOps (WSys.init Nat 4 [])
      [Op.create]).world.entities.has 0 = true ∧
    ((WSys.runOps (WSys.init Nat 4 [])
        [Op.create]).DestroyEntity 0).1.world.deletedEntities =
      0 :: (WSys.runOps (WSys.init Nat 4 [])
        [Op.create]).world.deletedEntities ∧
    (((WSys.runOps (WSys.init Nat 4 [])
        [Op.create]).DestroyEntity 0).1.CreateEntity).2 = 0 :=
  ⟨by decide,
    (C5_lifo_recycling _ 0 (by decide)).1,
    (C5_lifo_recycling _ 0 (by decide)).2⟩

/-- C5: counterexample to the claim as stated.  After
`create 0; create 1; destroy 0; destroy 1` the claim (FIFO recycling)
says the next `create_entity` returns 0, the id destroyed earliest; the
code returns 1, because `DestroyEntity` uses `push_front` and
`CreateEntity` pops the front — a LIFO stack. -/
theorem C5_counterexample :
    ((WSys.runOps (WSys.init Nat 4 [])
        [Op.create, Op.create, Op.destroy 0, Op.destroy 1]).CreateEntity).2 = 1 ∧
    ((WSys.runOps (WSys.init Nat 4 [])
        [Op.create, Op.create, Op.destroy 0, Op.destroy 1]).CreateEntity).2 ≠ 0 := by
  decide

/-- C4 (amended): over every reachable world state, `is_alive(e)` returns
true iff `e` is not in the deleted-ids deque, which — by the
partitioning invariant between the live-entity sparse set, the deque and
the ids handed out by `create_entity` — is equivalent to: `e` is in the
live-entity sparse set OR `e` was never returned by `create_entity`.  In
particular `is_alive` returns true (not false) for never-created ids. -/
theorem C4_is_alive_amended (PV : Type) (n : Nat) (systems : List CSystem)
    (ops : List (Op PV)) (x : Nat) :
    (WSys.runAcc (WSys.init PV n systems) ops).1.world.IsEntityAlive x =
      true ↔
    ((WSys.runAcc (WSys.init PV n systems) ops).1.world.entities.has x =
      true ∨ x ∉ (WSys.runAcc (WSys.init PV n systems) ops).2) := by
  have hinv := runAcc_AliveInv ops (WSys.init PV n systems) []
    (AliveInv_init PV n systems)
  rw [List.nil_append] at hinv
  rw [CWorld.IsEntityAlive_iff]
  constructor
  · intro hnd
    by_cases hcr : x ∈ (WSys.runAcc (WSys.init PV n systems) ops).2
    · rcases hinv.crcov x hcr with hh | hh
      · exact Or.inl hh
      · exact absurd hh hnd
    · exact Or.inr hcr
  · rintro (hh | hh)
    · intro hmem
      have hfalse := (hinv.ddead x hmem).2
      rw [hh] at hfalse
      exact Bool.noConfusion hfalse
    · intro hmem
      exact hh (hinv.ddead x hmem).1

/-- C4: counterexample to the claim as stated.  After a single
`create_entity` (which returned id 0), id 3 was never returned by
`create_entity` and is not in the live-entity sparse set, yet
`IsEntityAlive(3)` returns true — because the implementation only scans
the deleted-ids deque — while the claim says it must return false. -/
theorem C4_counterexample :
    (WSys.runAcc (WSys.init Nat 4 [])
      [Op.create]).1.world.IsEntityAlive 3 = true ∧
    (WSys.runAcc (WSys.init Nat 4 [])
      [Op.create]).1.world.entities.has 3 = false ∧
    (WSys.runAcc (WSys.init Nat 4 []) [Op.create]).2 = [0] := by
  decide

/-- C7: count exactness.  After every contract-respecting sequence of
public world operations and for every component id `c`,
`m_ValidComponents[c].first` equals the number of entity rows whose mask
has bit `c` set. -/
theorem C7_count_exactness (PV : Type) (n : Nat) (systems : List CSystem)
    (ops : List (Op PV)) (c : Nat)
    (hvalid : (WSys.init PV n systems).ValidOps ops = true) :
    (((WSys.init PV n systems).runOps ops).world.validComponents c).1 =
      ((Finset.range
          ((WSys.init PV n systems).runOps ops).world.largestEntityIndex).filter
        (fun e =>
          c ∈ ((WSys.init PV n systems).runOps ops).world.entityMasks e)).card :=
  (runOps_WInv ops _ (WInv_init PV n systems) hvalid).countEq c

/-- Witness for C7 on a concrete valid trace with creates, adds, a
destroy and a recycling create. -/
theorem C7_count_exactness_witness :
    (WSys.init Nat 4 []).ValidOps
      [Op.create, Op.create, Op.add 0 0 4 7, Op.add 1 0 4 8,
        Op.add 1 2 4 9, Op.destroy 1, Op.create] = true ∧
    (((WSys.init Nat 4 []).runOps
        [Op.create, Op.create, Op.add 0 0 4 7, Op.add 1 0 4 8,
          Op.add 1 2 4 9, Op.destroy 1, Op.create]).world.validComponents 0).1 =
      ((Finset.range
          ((WSys.init Nat 4 []).runOps
            [Op.create, Op.create, Op.add 0 0 4 7, Op.add 1 0 4 8,
              Op.add 1 2 4 9, Op.destroy 1, Op.create]).world.largestEntityIndex).filter
        (fun e =>
          0 ∈ ((WSys.init Nat 4 []).runOps
            [Op.create, Op.create, Op.add 0 0 4 7, Op.add 1 0 4 8,
              Op.add 1 2 4 9, Op.destroy 1, Op.create]).world.entityMasks e)).card :=
  ⟨by decide,
    C7_count_exactness Nat 4 []
      [Op.create, Op.create, Op.add 0 0 4 7, Op.add 1 0 4 8,
        Op.add 1 2 4 9, Op.destroy 1, Op.create] 0 (by decide)⟩

/-- C1: evaluation of the code at the failing input.  In a world with
entities 0 and 1, the first record ever written to store 0 (a component
of size 4) targets entity 1; the claim says the record is placed at byte
offset `1 * 4 = 4` and that `GetComponent` then returns the added value.
The code takes the `index == 0` branch of `ComponentCreate`, resizes the
buffer to one slot and constructs the record at byte offset 0, so the
`GetComponent` read at offset 4 finds uninitialized memory instead of
the added value `(7, 1)`. -/
theorem C1_first_write_offset_bug :
    ((WSys.runOps (WSys.init Nat 8 [])
        [Op.create, Op.create, Op.add 1 0 4 7]).world.componentBuffers 0).recs 0 =
      some (7, 1) ∧
    ((WSys.runOps (WSys.init Nat 8 [])
        [Op.create, Op.create, Op.add 1 0 4 7]).world.componentBuffers 0).recs (1 * 4) =
      none ∧
    (WSys.runOps (WSys.init Nat 8 [])
        [Op.create, Op.create, Op.add 1 0 4 7]).world.GetComponent 0 4 1 =
      none := by
  decide

/-- C10: evaluation of the code at the failing input.  In the reachable
state where the first write to store 0 (size 4) targeted entity 1, bit 0
of entity 1's mask is set, yet the slot offset `1 * 4` does not lie
within the buffer's current length (4 bytes), so the checked
(`Option`-returning) embedding of `GetComponent` takes its out-of-bounds
branch — contradicting the claim that the mask bit guarantees the offset
is in bounds. -/
theorem C10_checked_get_out_of_bounds :
    0 ∈ (WSys.runOps (WSys.init Nat 8 [])
      [Op.create, Op.create, Op.add 1 0 4 7]).world.entityMasks 1 ∧
    ((WSys.runOps (WSys.init Nat 8 [])
        [Op.create, Op.create, Op.add 1 0 4 7]).world.componentBuffers 0).len = 4 ∧
    ¬ (1 * 4 + 4 ≤ ((WSys.runOps (WSys.init Nat 8 [])
        [Op.create, Op.create, Op.add 1 0 4 7]).world.componentBuffers 0).len) ∧
    (WSys.runOps (WSys.init Nat 8 [])
        [Op.create, Op.create, Op.add 1 0 4 7]).world.GetComponentChecked 0 4 1 =
      none := by
  decide

/-- C2: evaluation of the code at the failing input.  A system with
inclusion mask `{0, 1}` (two component types) receives the on-add
notification for component 0 on entity 0 and inserts the entity into its
matching set — the listener only tests `changed ⊆ I` — although the
entity's mask `{0}` does not include the whole inclusion mask, so the
spec's filter formula (`specMatches`) excludes it.  The matching set
therefore differs from the claimed set after a public operation. -/
theorem C2_matching_set_mismatch :
    ((WSys.runOps (WSys.init Nat 8 [CSystem.mkSystem {0, 1} ∅ ∅])
        [Op.create, Op.add 0 0 4 7]).systems.headD
      (CSystem.mkSystem {0, 1} ∅ ∅)).matchingEntities.has 0 = true ∧
    ¬ specMatches
      (WSys.runOps (WSys.init Nat 8 [CSystem.mkSystem {0, 1} ∅ ∅])
        [Op.create, Op.add 0 0 4 7])
      (CSystem.mkSystem {0, 1} ∅ ∅) 0 := by
  decide

/-- C3: evaluation of the code at the failing input.  A system with
inclusion mask `{0}` matches entity 0, which carries components 0 and 1.
`destroy_entity(0)` dispatches exactly one on-remove notification with
`changed == mask_before == {0, 1}`, but the listener erases only when
`changed ⊆ I`, which fails for `{0, 1} ⊆ {0}`, so entity 0 remains in
the matching set — while the claim says it must be absent afterwards. -/
theorem C3_bulk_destroy_no_erase :
    ((WSys.runOps (WSys.init Nat 8 [CSystem.mkSystem {0} ∅ ∅])
        [Op.create, Op.add 0 0 4 7, Op.add 0 1 8 8]).DestroyEntity 0).2 =
      [⟨0, {0, 1}, {0, 1}⟩] ∧
    (((WSys.runOps (WSys.init Nat 8 [CSystem.mkSystem {0} ∅ ∅])
        [Op.create, Op.add 0 0 4 7, Op.add 0 1 8 8]).DestroyEntity 0).1.systems.headD
      (CSystem.mkSystem {0} ∅ ∅)).matchingEntities.has 0 = true := by
  decide
